import Mathlib

/-!
Shallow embedding of `src/gromacs/selection/selectioncollection.cpp`
(the `gmx::SelectionCollection` facade of the selection-language core)
and proofs about its behaviour.

Only the facade file is available as source; the lexer, the push parser,
the selection compiler and `PositionCalculationCollection::typeFromEnum`
are external to it.  Where a claim depends on one of those, the missing
part is modelled from the spec and marked `Modelled from the spec:` in
its doc comment.  Everything else is translated directly from the
source file.
-/

namespace SelCol

/-- Error kinds thrown by the facade (`InvalidInputError`,
`InconsistentInputError`, and `GMX_RELEASE_ASSERT`/`GMX_ASSERT`
violations). -/
inductive SelError where
  | invalidInput (msg : String)
  | inconsistentInput (msg : String)
  | assertionFailure (msg : String)
  deriving Repr, DecidableEq

/-- An external index group: a name together with an ordered list of
particle indices (`gmx_ana_indexgrps_t` entry). -/
structure IndexGroup where
  name    : String
  indices : List Nat
  deriving Repr, DecidableEq

/-- The payload of a `SEL_GROUPREF` node: `u.gref.name` when non-NULL,
otherwise the positional id `u.gref.id`. -/
inductive GroupRef where
  | byName (name : String)
  | byId (id : Nat)
  deriving Repr, DecidableEq

/-- The state of a selection-tree element relevant to the facade:
`SEL_GROUPREF` nodes carry an unresolved reference, `SEL_CONST` nodes
carry a resolved constant group (`u.cgrp`), and every other node kind is
collapsed into `other`, which records whether the node itself needs
topology information (consulted by `_gmx_selelem_requires_top`). -/
inductive ElemState where
  | groupref (ref : GroupRef)
  | const (cgrp : IndexGroup)
  | other (needsTop : Bool)
  deriving Repr, DecidableEq

/-- A selection-tree element (`SelectionTreeElement`): a node state plus
the ordered list of children (`child` / `next` chain in the source). -/
inductive SelElem where
  | node (st : ElemState) (children : List SelElem)
  deriving Repr

mutual

/-- Decidable equality for selection-tree elements. -/
def decEqSelElem : (a b : SelElem) → Decidable (a = b)
  | .node s1 c1, .node s2 c2 =>
      match decEq s1 s2, decEqSelElemList c1 c2 with
      | isTrue h1, isTrue h2 => isTrue (by rw [h1, h2])
      | isFalse h1, _ => isFalse (by intro h; cases h; exact h1 rfl)
      | isTrue _, isFalse h2 => isFalse (by intro h; cases h; exact h2 rfl)

/-- Decidable equality for lists of selection-tree elements. -/
def decEqSelElemList : (a b : List SelElem) → Decidable (a = b)
  | [], [] => isTrue rfl
  | [], _ :: _ => isFalse (by intro h; cases h)
  | _ :: _, [] => isFalse (by intro h; cases h)
  | a :: as, b :: bs =>
      match decEqSelElem a b, decEqSelElemList as bs with
      | isTrue h1, isTrue h2 => isTrue (by rw [h1, h2])
      | isFalse h1, _ => isFalse (by intro h; cases h; exact h1 rfl)
      | isTrue _, isFalse h2 => isFalse (by intro h; cases h; exact h2 rfl)

end

instance : DecidableEq SelElem := decEqSelElem

namespace SelElem

/-- The node state of the root of an element. -/
def state : SelElem → ElemState
  | .node st _ => st

/-- The children of an element. -/
def children : SelElem → List SelElem
  | .node _ cs => cs

end SelElem

/-- `gmx_ana_indexgrps_find`: look up a group by name in the external
group collection. -/
def findGroup (grps : List IndexGroup) (name : String) : Option IndexGroup :=
  grps.find? (fun g => g.name = name)

/-- `gmx_ana_indexgrps_extract`: look up a group by positional id in the
external group collection. -/
def extractGroup (grps : List IndexGroup) (id : Nat) : Option IndexGroup :=
  grps.get? id

/-- The unknown-group message appended by
`SelectionCollection::Impl::resolveExternalGroups`. -/
def unknownGroupMsg : String := "Unknown group referenced in a selection"

/-- Resolution of a single node, as done by the `SEL_GROUPREF` branch of
`resolveExternalGroups`: against a NULL group set every reference fails;
otherwise a by-name reference is looked up with
`gmx_ana_indexgrps_find` and a positional reference with
`gmx_ana_indexgrps_extract`.  On success the node type becomes
`SEL_CONST` holding the referenced group; on failure the node is left
unchanged and the unknown-group message is emitted. -/
def resolveNode (grps : Option (List IndexGroup)) :
    ElemState → ElemState × List String
  | .groupref ref =>
      match grps with
      | none => (.groupref ref, [unknownGroupMsg])
      | some gs =>
          match ref with
          | .byName name =>
              match findGroup gs name with
              | some g => (.const g, [])
              | none => (.groupref (.byName name), [unknownGroupMsg])
          | .byId id =>
              match extractGroup gs id with
              | some g => (.const g, [])
              | none => (.groupref (.byId id), [unknownGroupMsg])
  | st => (st, [])

mutual

/-- `SelectionCollection::Impl::resolveExternalGroups` on one root:
resolve the node itself if it is a group reference, then recurse into
every child, accumulating error messages in order. -/
def resolveExternalGroups (grps : Option (List IndexGroup)) :
    SelElem → SelElem × List String
  | .node st cs =>
      let r := resolveNode grps st
      let rc := resolveChildren grps cs
      (.node r.1 rc.1, r.2 ++ rc.2)

/-- The `child = root->child; while (child) ...` loop of
`resolveExternalGroups`, over the list of children. -/
def resolveChildren (grps : Option (List IndexGroup)) :
    List SelElem → List SelElem × List String
  | [] => ([], [])
  | e :: es =>
      let r := resolveExternalGroups grps e
      let rs := resolveChildren grps es
      (r.1 :: rs.1, r.2 ++ rs.2)

end

/-- Whether a node state is an unresolved group reference
(`type == SEL_GROUPREF`). -/
def ElemState.isGroupRef : ElemState → Bool
  | .groupref _ => true
  | .const _ => false
  | .other _ => false

mutual

/-- Whether an element's subtree contains an (unresolved) group
reference. -/
def hasGroupRef : SelElem → Bool
  | .node st cs => st.isGroupRef || hasGroupRefList cs

/-- Whether any element of a list contains a group reference. -/
def hasGroupRefList : List SelElem → Bool
  | [] => false
  | e :: es => hasGroupRef e || hasGroupRefList es

end

mutual

theorem resolveExternalGroups_none_errors (e : SelElem) :
    (resolveExternalGroups none e).2 ≠ [] ↔ hasGroupRef e = true := by
  match e with
  | .node st cs =>
      have ih := resolveChildren_none_errors cs
      simp only [resolveExternalGroups, hasGroupRef, ne_eq,
        List.append_eq_nil, Bool.or_eq_true, not_and]
      cases st <;> simp_all [resolveNode, ElemState.isGroupRef, unknownGroupMsg]

theorem resolveChildren_none_errors (es : List SelElem) :
    (resolveChildren none es).2 ≠ [] ↔ hasGroupRefList es = true := by
  match es with
  | [] => simp [resolveChildren, hasGroupRefList]
  | e :: es =>
      have ihe := resolveExternalGroups_none_errors e
      have ihes := resolveChildren_none_errors es
      simp only [resolveChildren, hasGroupRefList, ne_eq,
        List.append_eq_nil, Bool.or_eq_true, not_and]
      tauto

end

/-! ### Position types and topology requirements -/

/-- Modelled from the spec: the fixed enumeration of position types
(`e_poscalc_t`), "an aggregation mode (atom, residue-center,
molecule-center, etc.)"; `POS_ATOM` is the plain atom type. -/
inductive PosCalcType where
  | atom
  | resCom
  | resCog
  | molCom
  | molCog
  | wholeResCom
  | wholeResCog
  | wholeMolCom
  | wholeMolCog
  deriving Repr, DecidableEq

/-- Modelled from the spec:
`PositionCalculationCollection::typeEnumValues`, the fixed enumeration
of position-type names ("atom/residue-center/molecule-center/whole
variants"); the first entry, used as the option default, is the plain
atom type. -/
def typeEnumValues : List (String × PosCalcType) :=
  [("atom", .atom),
   ("res_com", .resCom), ("res_cog", .resCog),
   ("mol_com", .molCom), ("mol_cog", .molCog),
   ("whole_res_com", .wholeResCom), ("whole_res_cog", .wholeResCog),
   ("whole_mol_com", .wholeMolCom), ("whole_mol_cog", .wholeMolCog)]

/-- Modelled from the spec:
`PositionCalculationCollection::typeFromEnum` maps a position-type name
to its enumeration value; a name outside the fixed enumeration is
invalid (the real function throws for it, modelled as `none`). -/
def typeFromEnum (name : String) : Option PosCalcType :=
  (typeEnumValues.find? (fun p => p.1 = name)).map Prod.snd

/-- The per-node flag consulted by `_gmx_selelem_requires_top`: whether
this node kind itself needs structural information.  Group references
and constants do not. -/
def ElemState.needsTopFlag : ElemState → Bool
  | .groupref _ => false
  | .const _ => false
  | .other b => b

mutual

/-- Modelled from the spec: `_gmx_selelem_requires_top` — whether a
tree contains any construct requiring structural information
("property look-ups, molecule/residue groupings, or any non-atom
position type"). -/
def elemRequiresTop : SelElem → Bool
  | .node st cs => st.needsTopFlag || listRequiresTop cs

/-- Whether any element of a list requires structural information. -/
def listRequiresTop : List SelElem → Bool
  | [] => false
  | e :: es => elemRequiresTop e || listRequiresTop es

end

/-! ### The collection state -/

/-- The state of a `SelectionCollection` visible to the facade:
`Impl`'s members (`rpost_`, `spost_`, `debugLevel_`,
`bExternalGroupsSet_`, `grps_`) and the parts of
`gmx_ana_selcollection_t` the claims touch (`top`, `gall`, the root
forest `sc_.root`, and the selection list `sc_.sel`, kept as the
selection texts). -/
structure CollState where
  rpost : String := ""
  spost : String := ""
  debugLevel : Nat := 0
  top : Option Nat := none
  gall : List Nat := []
  bExternalGroupsSet : Bool := false
  grps : Option (List IndexGroup) := none
  forest : List SelElem := []
  sels : List String := []
  deriving Repr, DecidableEq

/-- The state constructed by `SelectionCollection::Impl::Impl()`. -/
def initialState : CollState := {}

/-- Observable side effects of `compile()`/`evaluate()`: diagnostic
dumps to the error stream and invocations of the collaborators. -/
inductive Event where
  | treeDump (bValues : Bool)
  | pccPrint
  | compilerRun
  | pccInitEvaluation
  | pccInitFrame
  | evaluatorRun
  deriving Repr, DecidableEq

/-- Modelled from the spec: `MessageStringCollector::toString`, the
"concatenated error text" of the collected messages. -/
def concatMessages (msgs : List String) : String :=
  String.join (msgs.map (fun m => m ++ "\n"))

/-- `SelectionCollection::setIndexGroups`: asserts the one-shot
precondition, stores the group set, resolves every root of the forest
in place (accumulating errors), and throws `InvalidInputError` with the
concatenated text if any resolution failed.  Returns the new state and
the thrown error, if any. -/
def setIndexGroups (grps : Option (List IndexGroup)) (s : CollState) :
    CollState × Option SelError :=
  if grps.isSome && s.bExternalGroupsSet then
    (s, some (.assertionFailure
      "Can only set external groups once or clear them afterwards"))
  else
    let r := resolveChildren grps s.forest
    let s1 := { s with grps := grps, bExternalGroupsSet := true,
                       forest := r.1 }
    if r.2.isEmpty then (s1, none)
    else (s1, some (.invalidInput (concatMessages r.2)))

/-- `SelectionCollection::requiresTopology`: true when the default
reference-position type is set and non-atom, when the default output
position type is set and non-atom, or when some tree in the forest
requires structural information. -/
def requiresTopology (s : CollState) : Bool :=
  if s.rpost ≠ "" &&
      (match typeFromEnum s.rpost with
       | some ty => decide (ty ≠ .atom)
       | none => false) then
    true
  else if s.spost ≠ "" &&
      (match typeFromEnum s.spost with
       | some ty => decide (ty ≠ .atom)
       | none => false) then
    true
  else
    s.forest.any elemRequiresTop

/-- Modelled from the spec: `SelectionCompiler::compile` transforms the
parsed forest into a compiled evaluation plan; its internal tree
transformation is outside the facade source, so only its invocation is
tracked (via `Event.compilerRun`) and the facade-visible state is kept.
-/
def compilerCompile (s : CollState) : CollState := s

/-- `SelectionCollection::compile`: checks the topology precondition,
implicitly resolves external groups against a NULL set when none were
supplied, dumps trees at debug level ≥ 1 before and after running the
compiler, and initializes the position-calculation evaluation.  Returns
the new state, the emitted events in order, and the thrown error, if
any. -/
def compile (s : CollState) : CollState × List Event × Option SelError :=
  if s.top = none && requiresTopology s then
    (s, [], some (.inconsistentInput
      "Selection requires topology information, but none provided"))
  else
    let groupsStep :=
      if !s.bExternalGroupsSet then setIndexGroups none s else (s, none)
    match groupsStep.2 with
    | some e => (groupsStep.1, [], some e)
    | none =>
        let s1 := groupsStep.1
        let pre := if 1 ≤ s1.debugLevel then [Event.treeDump false] else []
        let s2 := compilerCompile s1
        let post :=
          if 1 ≤ s1.debugLevel then
            [Event.treeDump false, Event.pccPrint]
          else []
        let fin := if 1 ≤ s1.debugLevel then [Event.pccPrint] else []
        (s2, pre ++ [Event.compilerRun] ++ post
               ++ [Event.pccInitEvaluation] ++ fin, none)

/-- `SelectionCollection::evaluate`: initializes the frame, runs the
evaluator and dumps trees with materialized values at debug
level ≥ 3.  The evaluator itself is outside the facade source; only its
invocation is tracked. -/
def evaluate (s : CollState) : CollState × List Event :=
  (s, [Event.pccInitFrame, Event.evaluatorRun]
        ++ if 3 ≤ s.debugLevel then [Event.treeDump true] else [])

/-- `SelectionCollection::setReferencePosType`: validates the name via
`typeFromEnum` (which throws for an invalid name) and only then stores
it as the default reference-position type. -/
def setReferencePosType (t : String) (s : CollState) :
    CollState × Option SelError :=
  match typeFromEnum t with
  | some _ => ({ s with rpost := t }, none)
  | none => (s, some (.invalidInput ("Unknown position type " ++ t)))

/-- `SelectionCollection::setOutputPosType`: validates the name via
`typeFromEnum` (which throws for an invalid name) and only then stores
it as the default output-position type. -/
def setOutputPosType (t : String) (s : CollState) :
    CollState × Option SelError :=
  match typeFromEnum t with
  | some _ => ({ s with spost := t }, none)
  | none => (s, some (.invalidInput ("Unknown position type " ++ t)))

/-! ### The parse entry points -/

/-- The outcome of the lexer/push-parser loop inside `runParser`, which
is outside the facade source (modelled from the spec: the parser
appends each finished top-level selection to the collection and
accumulates lexical/grammatical errors in the message collector instead
of aborting): the final acceptance status (`bOk`, i.e. the final push
status was 0), the collected error messages, and the selections and
trees appended to the collection while parsing. -/
structure ParseRun where
  ok : Bool
  errors : List String
  newSels : List String
  newTrees : List SelElem
  deriving Repr, DecidableEq

/-- The message appended by `runParser` when a counted request parsed
the wrong number of selections. -/
def countMismatchMsg : String := "Too few selections provided"

/-- `runParser` (the common tail of `parseFromStdin`, `parseFromFile`
and `parseFromString`): the selections parsed so far are already in the
collection; the count check appends an error and clears `bOk` when a
counted request (`maxnr > 0`) parsed a different number; on `!bOk` or a
non-empty collector the call throws `InvalidInputError` with the
concatenated text, leaving the already-added selections in place; on
success it returns the list of newly parsed selections. -/
def runParser (s : CollState) (run : ParseRun) (maxnr : Int) :
    CollState × Except SelError (List String) :=
  let s1 := { s with sels := s.sels ++ run.newSels,
                     forest := s.forest ++ run.newTrees }
  let nr : Int := run.newSels.length
  let countBad := decide (0 < maxnr) && decide (nr ≠ maxnr)
  let errors := if countBad then run.errors ++ [countMismatchMsg]
                else run.errors
  let bOk := run.ok && !countBad
  if !bOk || !errors.isEmpty then
    (s1, .error (.invalidInput (concatMessages errors)))
  else
    (s1, .ok run.newSels)

/-! ### Line reading with continuation (`promptLine`) -/

/-- `endsWith(line, "\x5c\n")`: whether the line ends in the
escape-continuation sequence (a backslash followed by a newline). -/
def endsWithContinuation (l : List Char) : Bool :=
  match l.reverse with
  | c1 :: c2 :: _ => c1 = '\n' && c2 = '\\'
  | _ => false

/-- `endsWith(line, "\n")`: whether the line ends in a newline. -/
def endsWithNewline (l : List Char) : Bool :=
  match l.reverse with
  | c :: _ => c = '\n'
  | _ => false

/-- `line->resize(line->length() - 2)`: drop the trailing continuation
sequence. -/
def stripLast2 (l : List Char) : List Char :=
  l.dropLast.dropLast

theorem endsWithContinuation_length {l : List Char}
    (h : endsWithContinuation l = true) : 2 ≤ l.length := by
  rw [show l.length = l.reverse.length from (l.length_reverse).symm]
  unfold endsWithContinuation at h
  split at h
  · next heq => rw [heq]; simp
  · simp at h

/-- The continuation loop of `promptLine`: while the line ends in the
escape sequence, strip it and append the next input line (or nothing at
end of input).  The remaining input lines are threaded through. -/
def contLoop (line : List Char) (input : List (List Char)) :
    List Char × List (List Char) :=
  if h : endsWithContinuation line then
    match input with
    | [] => contLoop (stripLast2 line) []
    | b :: rest => contLoop (stripLast2 line ++ b) rest
  else
    (line, input)
termination_by line.length + (input.map List.length).sum
decreasing_by
  all_goals
    have h2 := endsWithContinuation_length h
    simp only [stripLast2, List.length_append, List.length_dropLast,
      List.map_nil, List.sum_nil, List.map_cons, List.sum_cons]
    omega

/-- `promptLine`: read one line (none at end of input), splice
continuation lines into it, then strip a trailing newline.  The
`bInteractive` flag only controls prompt printing on the error stream
and does not affect the returned line. -/
def promptLine (bInteractive : Bool) (input : List (List Char)) :
    Option (List Char × List (List Char)) :=
  match bInteractive, input with
  | _, [] => none
  | _, line :: rest =>
      let r := contLoop line rest
      let line1 := if endsWithNewline r.1 then r.1.dropLast else r.1
      some (line1, r.2)

/-! ### The token-pushing loop (`runParserLoop`) -/

/-- The token code of the command separator (`CMD_SEP`); any fixed
nonzero code works for the model.  Token code 0 is what the lexer
returns at end of input. -/
def CMD_SEP : Nat := 1

/-- The loop body of `runParserLoop` with the running `prevToken`,
returning the sequence of tokens pushed to the parser
(`_gmx_sel_yypush_parse`).  In interactive mode, end of input breaks
the loop without a push and a separator directly following another
separator is skipped (`continue`); in non-interactive mode every token
is pushed, the end-of-input token 0 included (modelled from the spec
for the push parser: it keeps returning `YYPUSH_MORE` on nonzero
tokens of error-free input and accepts on token 0). -/
def runParserLoopAux (bInteractive : Bool) (prev : Nat) :
    List Nat → List Nat
  | [] => if bInteractive then [] else [0]
  | t :: ts =>
      if bInteractive then
        if prev = CMD_SEP && t = CMD_SEP then
          runParserLoopAux true prev ts
        else
          t :: runParserLoopAux true t ts
      else
        t :: runParserLoopAux false prev ts

/-- `runParserLoop` over a token stream: `prevToken` starts at 0. -/
def runParserLoop (bInteractive : Bool) (tokens : List Nat) : List Nat :=
  runParserLoopAux bInteractive 0 tokens

/-- Modelled from the spec: the number of top-level selections the
grammar produces from a pushed token stream — "every legal top-level
expression terminated by a separator yields one parsed selection",
while an empty command (no tokens between separators, or before end of
input) yields none.  The `Bool` argument records whether the current
command has any tokens yet. -/
def parserSelectionsAux (inCmd : Bool) : List Nat → Nat
  | [] => 0
  | t :: ts =>
      if t = CMD_SEP || t = 0 then
        (if inCmd then 1 else 0) + parserSelectionsAux false ts
      else
        parserSelectionsAux true ts

/-- The number of selections produced from a pushed token stream. -/
def parserSelections (pushed : List Nat) : Nat :=
  parserSelectionsAux false pushed

/-- No two consecutive pushed tokens are both command separators. -/
def noConsecMatching : List Nat → Bool
  | [] => true
  | [_] => true
  | a :: b :: ts =>
      !(a = CMD_SEP && b = CMD_SEP) && noConsecMatching (b :: ts)

/-! ### Helper lemmas about group resolution -/

mutual

theorem resolve_noErrors_noGroupRef (grps : Option (List IndexGroup))
    (e : SelElem) (h : (resolveExternalGroups grps e).2 = []) :
    hasGroupRef (resolveExternalGroups grps e).1 = false := by
  match e with
  | .node st cs =>
      simp only [resolveExternalGroups, List.append_eq_nil] at h ⊢
      have ih := resolveChildren_noErrors_noGroupRef grps cs h.2
      simp only [hasGroupRef, Bool.or_eq_false_iff]
      refine ⟨?_, ih⟩
      cases st with
      | groupref ref =>
          cases grps with
          | none => simp [resolveNode, unknownGroupMsg] at h
          | some gs =>
              cases ref with
              | byName name =>
                  simp only [resolveNode] at h ⊢
                  cases hf : findGroup gs name with
                  | none => rw [hf] at h; simp at h
                  | some g => rfl
              | byId id =>
                  simp only [resolveNode] at h ⊢
                  cases hf : extractGroup gs id with
                  | none => rw [hf] at h; simp at h
                  | some g => rfl
      | const g => rfl
      | other b => rfl

theorem resolveChildren_noErrors_noGroupRef (grps : Option (List IndexGroup))
    (es : List SelElem) (h : (resolveChildren grps es).2 = []) :
    hasGroupRefList (resolveChildren grps es).1 = false := by
  match es with
  | [] => rfl
  | e :: es =>
      simp only [resolveChildren, List.append_eq_nil] at h ⊢
      have ihe := resolve_noErrors_noGroupRef grps e h.1
      have ihes := resolveChildren_noErrors_noGroupRef grps es h.2
      simp [hasGroupRefList, ihe, ihes]

end

mutual

theorem resolve_noGroupRef_id (grps : Option (List IndexGroup))
    (e : SelElem) (h : hasGroupRef e = false) :
    resolveExternalGroups grps e = (e, []) := by
  match e with
  | .node st cs =>
      simp only [hasGroupRef, Bool.or_eq_false_iff] at h
      have ih := resolveChildren_noGroupRef_id grps cs h.2
      simp only [resolveExternalGroups, ih]
      cases st with
      | groupref ref => simp [ElemState.isGroupRef] at h
      | const g => simp [resolveNode]
      | other b => simp [resolveNode]

theorem resolveChildren_noGroupRef_id (grps : Option (List IndexGroup))
    (es : List SelElem) (h : hasGroupRefList es = false) :
    resolveChildren grps es = (es, []) := by
  match es with
  | [] => rfl
  | e :: es =>
      simp only [hasGroupRefList, Bool.or_eq_false_iff] at h
      have ihe := resolve_noGroupRef_id grps e h.1
      have ihes := resolveChildren_noGroupRef_id grps es h.2
      simp [resolveChildren, ihe, ihes]

end

/-! ### Claim theorems -/

/-- C10: `setReferencePosType` and `setOutputPosType` validate the
given position-type name against the fixed position-type enumeration
before storing it: for every invalid name the call throws
(`InvalidInput`) and the previously stored default position type is
unchanged; for every valid name the stored default becomes exactly the
given string. -/
theorem setPosType_validates (t : String) (s : CollState) :
    (typeFromEnum t = none →
      (∃ m, (setReferencePosType t s).2 = some (.invalidInput m)) ∧
      (setReferencePosType t s).1 = s ∧
      (∃ m, (setOutputPosType t s).2 = some (.invalidInput m)) ∧
      (setOutputPosType t s).1 = s) ∧
    ((typeFromEnum t).isSome = true →
      setReferencePosType t s = ({ s with rpost := t }, none) ∧
      setOutputPosType t s = ({ s with spost := t }, none)) := by
  constructor
  · intro h
    simp [setReferencePosType, setOutputPosType, h]
  · intro h
    rcases Option.isSome_iff_exists.mp h with ⟨ty, hty⟩
    simp [setReferencePosType, setOutputPosType, hty]

/-- Witness for C10: "res_com" is valid and is stored exactly; "bogus"
is invalid, throws, and leaves the stored defaults unchanged. -/
theorem setPosType_validates_witness :
    (setReferencePosType "res_com" initialState).1.rpost = "res_com" ∧
    (setReferencePosType "bogus" initialState).1 = initialState ∧
    (∃ m, (setReferencePosType "bogus" initialState).2 =
      some (.invalidInput m)) := by
  have hv := (setPosType_validates "res_com" initialState).2 (by decide)
  have hi := (setPosType_validates "bogus" initialState).1 (by decide)
  exact ⟨by rw [hv.1], hi.2.1, hi.1⟩

/-- C6: `requiresTopology()` returns true if and only if the configured
default reference-position type is non-empty and not the plain atom
type, or the configured default output-position type is non-empty and
not the plain atom type, or at least one tree in the current forest
requires structural information; with atom-type defaults and an empty
forest it returns false. -/
theorem requiresTopology_spec (s : CollState)
    (hr : s.rpost ≠ "" → (typeFromEnum s.rpost).isSome = true)
    (hs : s.spost ≠ "" → (typeFromEnum s.spost).isSome = true) :
    (requiresTopology s = true ↔
      (s.rpost ≠ "" ∧ typeFromEnum s.rpost ≠ some .atom) ∨
      (s.spost ≠ "" ∧ typeFromEnum s.spost ≠ some .atom) ∨
      (∃ e ∈ s.forest, elemRequiresTop e = true)) ∧
    requiresTopology { initialState with rpost := "atom", spost := "atom" }
      = false := by
  constructor
  · unfold requiresTopology
    by_cases hre : s.rpost = ""
    · by_cases hse : s.spost = ""
      · simp [hre, hse, List.any_eq_true]
      · rcases Option.isSome_iff_exists.mp (hs hse) with ⟨ty, hty⟩
        by_cases hta : ty = PosCalcType.atom
        · subst hta
          simp [hre, hse, hty, List.any_eq_true]
        · simp [hre, hse, hty, hta, List.any_eq_true]
    · rcases Option.isSome_iff_exists.mp (hr hre) with ⟨ty, hty⟩
      by_cases hta : ty = PosCalcType.atom
      · subst hta
        by_cases hse : s.spost = ""
        · simp [hre, hse, hty, List.any_eq_true]
        · rcases Option.isSome_iff_exists.mp (hs hse) with ⟨ty2, hty2⟩
          by_cases hta2 : ty2 = PosCalcType.atom
          · subst hta2
            simp [hre, hse, hty, hty2, List.any_eq_true]
          · simp [hre, hse, hty, hty2, hta2, List.any_eq_true]
      · simp [hre, hty, hta, List.any_eq_true]
  · decide

/-- Witness for C6: a non-atom reference-position default alone forces
`requiresTopology`, and the atom/atom empty-forest state does not. -/
theorem requiresTopology_spec_witness :
    requiresTopology { initialState with rpost := "res_com" } = true ∧
    requiresTopology { initialState with rpost := "atom", spost := "atom" }
      = false := by
  have h := requiresTopology_spec { initialState with rpost := "res_com" }
    (fun _ => by decide) (fun hc => absurd rfl hc)
  exact ⟨h.1.mpr (Or.inl ⟨by decide, by decide⟩), h.2⟩

/-- The events emitted by a `compile()` call that runs to completion,
at debug level `d`. -/
def compileEvents (d : Nat) : List Event :=
  (if 1 ≤ d then [Event.treeDump false] else [])
    ++ [Event.compilerRun]
    ++ (if 1 ≤ d then [Event.treeDump false, Event.pccPrint] else [])
    ++ [Event.pccInitEvaluation]
    ++ (if 1 ≤ d then [Event.pccPrint] else [])

theorem compile_eq_of_groupsSet (s : CollState)
    (hcond : (decide (s.top = none) && requiresTopology s) = false)
    (hb : s.bExternalGroupsSet = true) :
    compile s = (compilerCompile s, compileEvents s.debugLevel, none) := by
  unfold compile compileEvents
  simp [hcond, hb]

theorem compile_eq_of_group_fail (s : CollState)
    (hcond : (decide (s.top = none) && requiresTopology s) = false)
    (hb : s.bExternalGroupsSet = false)
    (hne : (resolveChildren none s.forest).2.isEmpty = false) :
    compile s = ({ s with grps := none, bExternalGroupsSet := true,
                          forest := (resolveChildren none s.forest).1 },
      [], some (.invalidInput
        (concatMessages (resolveChildren none s.forest).2))) := by
  unfold compile setIndexGroups
  simp [hcond, hb, hne]

theorem compile_eq_of_group_ok (s : CollState)
    (hcond : (decide (s.top = none) && requiresTopology s) = false)
    (hb : s.bExternalGroupsSet = false)
    (hemp : (resolveChildren none s.forest).2.isEmpty = true) :
    compile s = (compilerCompile
        { s with grps := none, bExternalGroupsSet := true,
                 forest := (resolveChildren none s.forest).1 },
      compileEvents s.debugLevel, none) := by
  unfold compile setIndexGroups compileEvents
  simp [hcond, hb, hemp]

/-- C5: for every collection state with no topology attached and
`requiresTopology()` true, `compile()` fails with the missing-structure
`InconsistentInput` error before performing any compilation work (state
unchanged, no events emitted); when a topology is attached or
`requiresTopology()` is false, this check passes (any later failure is
an `InvalidInput`, never the missing-structure error). -/
theorem compile_missing_topology (s : CollState) :
    (s.top = none ∧ requiresTopology s = true →
      compile s = (s, [], some (.inconsistentInput
        "Selection requires topology information, but none provided"))) ∧
    ((s.top ≠ none ∨ requiresTopology s = false) →
      ∀ e, (compile s).2.2 = some e → ∃ m, e = .invalidInput m) := by
  constructor
  · rintro ⟨h1, h2⟩
    simp [compile, h1, h2]
  · intro h e he
    have hcond : (decide (s.top = none) && requiresTopology s) = false := by
      rcases h with h | h
      · simp [h]
      · simp [h]
    by_cases hb : s.bExternalGroupsSet
    · rw [compile_eq_of_groupsSet s hcond hb] at he
      simp at he
    · rw [Bool.not_eq_true] at hb
      by_cases hemp : (resolveChildren none s.forest).2.isEmpty
      · rw [compile_eq_of_group_ok s hcond hb hemp] at he
        simp at he
      · rw [Bool.not_eq_true] at hemp
        rw [compile_eq_of_group_fail s hcond hb hemp] at he
        simp only [Option.some.injEq] at he
        exact ⟨concatMessages (resolveChildren none s.forest).2, he.symm⟩

/-- Witness for C5: a state needing topology with none attached fails
with the missing-structure error; attaching a topology makes the check
pass. -/
theorem compile_missing_topology_witness :
    compile { initialState with rpost := "res_com" } =
      ({ initialState with rpost := "res_com" }, [],
        some (.inconsistentInput
          "Selection requires topology information, but none provided")) ∧
    ∀ e, (compile { initialState with rpost := "res_com", top := some 10
        }).2.2 = some e → ∃ m, e = .invalidInput m := by
  constructor
  · exact (compile_missing_topology
      { initialState with rpost := "res_com" }).1 ⟨rfl, by decide⟩
  · exact (compile_missing_topology
      { initialState with rpost := "res_com", top := some 10 }).2
      (Or.inl (by decide))

theorem resolveChildren_isEmpty_false (es : List SelElem)
    (h : hasGroupRefList es = true) :
    (resolveChildren none es).2.isEmpty = false := by
  have := (resolveChildren_none_errors es).mpr h
  cases hc : (resolveChildren none es).2 with
  | nil => exact absurd hc this
  | cons a t => rfl

/-- C2: if `setIndexGroups` has never been called before `compile()`,
then `compile()` resolves group references against an empty (NULL)
group set, so any forest containing an unresolved group reference makes
`compile()` fail with the unknown-group `InvalidInput` error without
invoking the compiler on the trees (no events at all are emitted). -/
theorem compile_unresolved_groups (s : CollState)
    (htop : s.top ≠ none ∨ requiresTopology s = false)
    (hset : s.bExternalGroupsSet = false)
    (href : hasGroupRefList s.forest = true) :
    (∃ m, (compile s).2.2 = some (.invalidInput m)) ∧
    (compile s).2.1 = [] ∧
    Event.compilerRun ∉ (compile s).2.1 := by
  have hcond : (decide (s.top = none) && requiresTopology s) = false := by
    rcases htop with h | h
    · simp [h]
    · simp [h]
  have hne := resolveChildren_isEmpty_false s.forest href
  rw [compile_eq_of_group_fail s hcond hset hne]
  exact ⟨⟨concatMessages (resolveChildren none s.forest).2, rfl⟩,
    rfl, by simp⟩

/-- Witness for C2: a collection holding a single named-group reference
and no attached groups fails at `compile()` with `InvalidInput` and the
compiler is never run. -/
theorem compile_unresolved_groups_witness :
    (∃ m, (compile { initialState with
        forest := [.node (.groupref (.byName "prot")) []] }).2.2 =
      some (.invalidInput m)) ∧
    (compile { initialState with
        forest := [.node (.groupref (.byName "prot")) []] }).2.1 = [] ∧
    Event.compilerRun ∉ (compile { initialState with
        forest := [.node (.groupref (.byName "prot")) []] }).2.1 :=
  compile_unresolved_groups
    { initialState with forest := [.node (.groupref (.byName "prot")) []] }
    (Or.inr (by decide)) rfl (by decide)

/-- C1: a parse call succeeds exactly when zero errors were collected
and, for a counted-selection request (`maxnr > 0`), the number of newly
parsed selections equals the requested count; otherwise it fails with
an `InvalidInput` error carrying the concatenated collected error text
(including the count-mismatch message when applicable), and every
selection and tree added before the failure remains in the collection.
The hypothesis is the invariant asserted by the source
(`GMX_ASSERT(!bOk && !errors.isEmpty(), "Inconsistent error
reporting")`): the push parser accepts exactly when no error was
collected. -/
theorem runParser_eq_countBad (s : CollState) (run : ParseRun)
    (maxnr : Int) (h1 : 0 < maxnr)
    (h2 : (run.newSels.length : Int) ≠ maxnr) :
    runParser s run maxnr =
      ({ s with sels := s.sels ++ run.newSels,
                forest := s.forest ++ run.newTrees },
       .error (.invalidInput
         (concatMessages (run.errors ++ [countMismatchMsg])))) := by
  unfold runParser
  simp [h1, h2]

theorem runParser_eq_ok (s : CollState) (run : ParseRun) (maxnr : Int)
    (hcb : ¬(0 < maxnr ∧ (run.newSels.length : Int) ≠ maxnr))
    (he : run.errors = []) (hok : run.ok = true) :
    runParser s run maxnr =
      ({ s with sels := s.sels ++ run.newSels,
                forest := s.forest ++ run.newTrees },
       .ok run.newSels) := by
  have hcbb : (decide (0 < maxnr)
      && decide ((run.newSels.length : Int) ≠ maxnr)) = false := by
    rcases not_and_or.mp hcb with h | h
    · simp [h]
    · rw [not_not] at h
      simp [h]
  unfold runParser
  simp [hcbb, he, hok]
  exact fun hm => by_contra fun hne => hcb ⟨hm, hne⟩

theorem runParser_eq_err (s : CollState) (run : ParseRun) (maxnr : Int)
    (hcb : ¬(0 < maxnr ∧ (run.newSels.length : Int) ≠ maxnr))
    (hok : run.ok = false) :
    runParser s run maxnr =
      ({ s with sels := s.sels ++ run.newSels,
                forest := s.forest ++ run.newTrees },
       .error (.invalidInput (concatMessages run.errors))) := by
  have hcbb : (decide (0 < maxnr)
      && decide ((run.newSels.length : Int) ≠ maxnr)) = false := by
    rcases not_and_or.mp hcb with h | h
    · simp [h]
    · rw [not_not] at h
      simp [h]
  unfold runParser
  simp [hcbb, hok]
  rw [if_neg hcb]

theorem runParser_spec (s : CollState) (run : ParseRun) (maxnr : Int)
    (h : run.ok = run.errors.isEmpty) :
    ((runParser s run maxnr).1.sels = s.sels ++ run.newSels ∧
     (runParser s run maxnr).1.forest = s.forest ++ run.newTrees) ∧
    ((∃ l, (runParser s run maxnr).2 = .ok l) ↔
      (run.errors = [] ∧
        (0 < maxnr → (run.newSels.length : Int) = maxnr))) ∧
    ((runParser s run maxnr).2 = .ok run.newSels ∨
     (runParser s run maxnr).2 = .error (.invalidInput (concatMessages
        (if 0 < maxnr ∧ (run.newSels.length : Int) ≠ maxnr
         then run.errors ++ [countMismatchMsg] else run.errors)))) := by
  by_cases hc : 0 < maxnr ∧ (run.newSels.length : Int) ≠ maxnr
  · rw [runParser_eq_countBad s run maxnr hc.1 hc.2, if_pos hc]
    refine ⟨⟨rfl, rfl⟩, ?_, Or.inr rfl⟩
    constructor
    · rintro ⟨l, hl⟩
      simp at hl
    · rintro ⟨-, hcount⟩
      exact absurd (hcount hc.1) hc.2
  · rw [if_neg hc]
    by_cases he : run.errors = []
    · have hok : run.ok = true := by rw [h, he]; rfl
      rw [runParser_eq_ok s run maxnr hc he hok]
      refine ⟨⟨rfl, rfl⟩, ?_, Or.inl rfl⟩
      constructor
      · intro _
        exact ⟨he, fun hm => by_contra fun hne => hc ⟨hm, hne⟩⟩
      · intro _
        exact ⟨run.newSels, rfl⟩
    · have hok : run.ok = false := by
        rw [h]
        cases herr : run.errors with
        | nil => exact absurd herr he
        | cons a t => rfl
      rw [runParser_eq_err s run maxnr hc hok]
      refine ⟨⟨rfl, rfl⟩, ?_, Or.inr rfl⟩
      constructor
      · rintro ⟨l, hl⟩
        simp at hl
      · rintro ⟨herr, -⟩
        exact absurd herr he

/-- Witness for C1: an error-free run with the requested count
succeeds, keeping the parsed selection in the collection. -/
theorem runParser_spec_witness :
    ((runParser initialState
        ⟨true, [], ["resname RA"], [.node (.other false) []]⟩ 1).1.sels =
      [] ++ ["resname RA"] ∧
     (runParser initialState
        ⟨true, [], ["resname RA"], [.node (.other false) []]⟩ 1).1.forest =
      [] ++ [.node (.other false) []]) ∧
    ((∃ l, (runParser initialState
        ⟨true, [], ["resname RA"], [.node (.other false) []]⟩ 1).2 =
          .ok l) ↔
      (([] : List String) = [] ∧ (0 < (1 : Int) →
        ((["resname RA"].length : Nat) : Int) = 1))) ∧
    ((runParser initialState
        ⟨true, [], ["resname RA"], [.node (.other false) []]⟩ 1).2 =
        .ok ["resname RA"] ∨
     (runParser initialState
        ⟨true, [], ["resname RA"], [.node (.other false) []]⟩ 1).2 =
        .error (.invalidInput (concatMessages
          (if 0 < (1 : Int) ∧ ((["resname RA"].length : Nat) : Int) ≠ 1
           then [] ++ [countMismatchMsg] else [])))) :=
  runParser_spec initialState
    ⟨true, [], ["resname RA"], [.node (.other false) []]⟩ 1 rfl

theorem endsWithContinuation_concat (l : List Char) :
    endsWithContinuation (l ++ ['\\', '\n']) = true := by
  unfold endsWithContinuation
  rw [List.reverse_append]
  simp

theorem stripLast2_concat (l : List Char) :
    stripLast2 (l ++ ['\\', '\n']) = l := by
  have h2 : l ++ ['\\', '\n'] = (l ++ ['\\']) ++ ['\n'] := by simp
  rw [stripLast2, h2, List.dropLast_concat, List.dropLast_concat]

theorem endsWithContinuation_newline {l : List Char}
    (h : l.getLast? ≠ some '\\') :
    endsWithContinuation (l ++ ['\n']) = false := by
  unfold endsWithContinuation
  rw [List.reverse_append]
  rcases hrev : l.reverse with _ | ⟨c, t⟩
  · rfl
  · have hc : c ≠ '\\' := by
      intro hcc
      apply h
      rw [← List.head?_reverse, hrev, hcc]
      rfl
    simp [hc]

theorem endsWithNewline_concat (l : List Char) :
    endsWithNewline (l ++ ['\n']) = true := by
  unfold endsWithNewline
  rw [List.reverse_append]
  simp

theorem contLoop_step (l next : List Char) (rest : List (List Char)) :
    contLoop (l ++ ['\\', '\n']) (next :: rest) = contLoop (l ++ next) rest := by
  rw [contLoop.eq_def, dif_pos (endsWithContinuation_concat l)]
  show contLoop (stripLast2 (l ++ ['\\', '\n']) ++ next) rest
    = contLoop (l ++ next) rest
  rw [stripLast2_concat]

theorem contLoop_stop {line : List Char}
    (h : endsWithContinuation line = false) (input : List (List Char)) :
    contLoop line input = (line, input) := by
  rw [contLoop.eq_def, dif_neg (by simp [h])]

theorem promptLine_cons (b : Bool) (line : List Char)
    (rest : List (List Char)) :
    promptLine b (line :: rest) =
      some (if endsWithNewline (contLoop line rest).1
            then (contLoop line rest).1.dropLast
            else (contLoop line rest).1,
        (contLoop line rest).2) := rfl

/-- C8: a line ending in the escape-continuation sequence has the
following line appended with the continuation character and the
intervening newline stripped before being handed to the tokenizer
(reading the joined input behaves identically), the behaviour is the
same in interactive and non-interactive mode (the flag only controls
prompts), and a trailing newline on the completed line is stripped. -/
theorem promptLine_continuation (b b' : Bool) (l next : List Char)
    (rest : List (List Char)) (h : l.getLast? ≠ some '\\') :
    promptLine b ((l ++ ['\\', '\n']) :: next :: rest) =
      promptLine b ((l ++ next) :: rest) ∧
    (∀ input, promptLine b input = promptLine b' input) ∧
    promptLine b ((l ++ ['\n']) :: rest) = some (l, rest) := by
  refine ⟨?_, ?_, ?_⟩
  · rw [promptLine_cons, promptLine_cons, contLoop_step]
  · intro input
    cases input <;> rfl
  · rw [promptLine_cons,
      contLoop_stop (endsWithContinuation_newline h) rest]
    simp only [endsWithNewline_concat, if_true, List.dropLast_concat]

/-- Witness for C8: splicing the continuation of "resname\ RA" behaves
like the joined line, and the trailing newline of a plain line is
stripped, in either mode. -/
theorem promptLine_continuation_witness :
    promptLine true ((['r', 'a'] ++ ['\\', '\n']) :: ['R', 'A', '\n'] :: []) =
      promptLine true ((['r', 'a'] ++ ['R', 'A', '\n']) :: []) ∧
    (∀ input, promptLine true input = promptLine false input) ∧
    promptLine true ((['r', 'a'] ++ ['\n']) :: []) = some (['r', 'a'], []) :=
  promptLine_continuation true false ['r', 'a'] ['R', 'A', '\n'] []
    (by decide)

theorem runParserLoopAux_interactive (ts : List Nat) : ∀ prev : Nat,
    noConsecMatching (runParserLoopAux true prev ts) = true ∧
    ((runParserLoopAux true prev ts).head? = some CMD_SEP →
      prev ≠ CMD_SEP) := by
  induction ts with
  | nil =>
      intro prev
      refine ⟨rfl, ?_⟩
      intro hh
      simp [runParserLoopAux] at hh
  | cons t ts ih =>
      intro prev
      by_cases hskip : prev = CMD_SEP ∧ t = CMD_SEP
      · have hs : runParserLoopAux true prev (t :: ts)
            = runParserLoopAux true prev ts := by
          simp [runParserLoopAux, hskip.1, hskip.2]
        rw [hs]
        exact ⟨(ih prev).1, (ih prev).2⟩
      · have hpush : runParserLoopAux true prev (t :: ts)
            = t :: runParserLoopAux true t ts := by
          have hc : (decide (prev = CMD_SEP) && decide (t = CMD_SEP))
              = false := by
            rcases not_and_or.mp hskip with h | h <;> simp [h]
          simp [runParserLoopAux, hc]
        rw [hpush]
        constructor
        · cases hrest : runParserLoopAux true t ts with
          | nil => rfl
          | cons b bs =>
              have h1 := (ih t).1
              rw [hrest] at h1
              have h2 := (ih t).2
              rw [hrest] at h2
              simp only [List.head?_cons, Option.some.injEq] at h2
              simp only [noConsecMatching, h1, Bool.and_true,
                Bool.not_eq_true']
              by_cases hb : b = CMD_SEP
              · have ht : t ≠ CMD_SEP := h2 hb
                simp [ht]
              · simp [hb]
        · intro hh hp
          simp only [List.head?_cons, Option.some.injEq] at hh
          exact hskip ⟨hp, hh⟩

/-- C7 counterexample: in non-interactive (string) mode the second of
two consecutive separator tokens is NOT suppressed — `runParserLoop`
pushes both separators (and the terminating token 0) to the parser,
because the suppression sits under the `bInteractive` guard. -/
theorem runParserLoop_string_counterexample :
    runParserLoop false [CMD_SEP, CMD_SEP] = [CMD_SEP, CMD_SEP, 0] ∧
    runParserLoop true [CMD_SEP, CMD_SEP] = [CMD_SEP] := by
  exact ⟨rfl, rfl⟩

/-- C7 amended: the empty-command suppression applies only in
interactive mode, where no two consecutive separators are ever pushed;
in non-interactive (string) mode every token is pushed.  Parsing an
empty string or a separator-only string still yields zero selections
in both modes (an empty command produces no selection in the grammar),
and an error-free parse of zero selections with no requested count
succeeds. -/
theorem runParserLoop_amended :
    (∀ tokens, noConsecMatching (runParserLoop true tokens) = true) ∧
    runParserLoop false [CMD_SEP, CMD_SEP] = [CMD_SEP, CMD_SEP, 0] ∧
    parserSelections (runParserLoop false []) = 0 ∧
    parserSelections (runParserLoop true []) = 0 ∧
    parserSelections (runParserLoop false [CMD_SEP]) = 0 ∧
    parserSelections (runParserLoop true [CMD_SEP]) = 0 ∧
    (runParser initialState ⟨true, [], [], []⟩ (-1)).2 = .ok [] := by
  refine ⟨fun tokens => (runParserLoopAux_interactive tokens 0).1,
    rfl, rfl, rfl, rfl, rfl, rfl⟩

/-- C3 counterexample: with one selection referencing the unknown group
"bogus" and another validly referencing "groupA", `setIndexGroups`
fails with the unknown-group error, yet the valid selection's node IS
changed by the failing call: its group reference is converted in place
to a constant. -/
theorem setIndexGroups_mutation_counterexample :
    (setIndexGroups (some [⟨"groupA", [2, 7, 9]⟩])
        { initialState with
          forest := [.node (.groupref (.byName "bogus")) [],
                     .node (.groupref (.byName "groupA")) []] }).2 =
      some (.invalidInput "Unknown group referenced in a selection\n") ∧
    (setIndexGroups (some [⟨"groupA", [2, 7, 9]⟩])
        { initialState with
          forest := [.node (.groupref (.byName "bogus")) [],
                     .node (.groupref (.byName "groupA")) []] }).1.forest =
      [.node (.groupref (.byName "bogus")) [],
       .node (.const ⟨"groupA", [2, 7, 9]⟩) []] := ⟨rfl, rfl⟩

/-- C3 amended: for a collection with an unresolved reference to an
unknown group, the group-resolution step fails with the unknown-group
`InvalidInput` error, but it resolves every root in place first: the
group references of the valid selections are converted to constants
even though the call fails.  The selection list itself is untouched and
no compilation is performed by this call. -/
theorem setIndexGroups_amended (s : CollState) (gs : List IndexGroup)
    (hset : s.bExternalGroupsSet = false) :
    (setIndexGroups (some gs) s).1.forest =
      (resolveChildren (some gs) s.forest).1 ∧
    ((setIndexGroups (some gs) s).2 = none ↔
      (resolveChildren (some gs) s.forest).2 = []) ∧
    (∀ e, (setIndexGroups (some gs) s).2 = some e →
      e = .invalidInput
        (concatMessages (resolveChildren (some gs) s.forest).2)) ∧
    (setIndexGroups (some gs) s).1.sels = s.sels := by
  unfold setIndexGroups
  simp only [Option.isSome_some, hset, Bool.and_false, Bool.false_eq_true,
    if_false]
  by_cases hemp : (resolveChildren (some gs) s.forest).2.isEmpty = true
  · have hnil := List.isEmpty_iff.mp hemp
    simp [hemp, hnil]
  · have hne : (resolveChildren (some gs) s.forest).2 ≠ [] := by
      intro hh
      rw [hh] at hemp
      exact hemp rfl
    rw [Bool.not_eq_true] at hemp
    simp [hemp, hne]

/-- Witness for C3's amended claim, at the two-selection scenario of
the counterexample. -/
theorem setIndexGroups_amended_witness :
    (setIndexGroups (some [⟨"groupA", [2, 7, 9]⟩])
        { initialState with
          forest := [.node (.groupref (.byName "bogus")) [],
                     .node (.groupref (.byName "groupA")) []] }).1.forest =
      (resolveChildren (some [⟨"groupA", [2, 7, 9]⟩])
        [.node (.groupref (.byName "bogus")) [],
         .node (.groupref (.byName "groupA")) []]).1 ∧
    ((setIndexGroups (some [⟨"groupA", [2, 7, 9]⟩])
        { initialState with
          forest := [.node (.groupref (.byName "bogus")) [],
                     .node (.groupref (.byName "groupA")) []] }).2 = none ↔
      (resolveChildren (some [⟨"groupA", [2, 7, 9]⟩])
        [.node (.groupref (.byName "bogus")) [],
         .node (.groupref (.byName "groupA")) []]).2 = []) ∧
    (∀ e, (setIndexGroups (some [⟨"groupA", [2, 7, 9]⟩])
        { initialState with
          forest := [.node (.groupref (.byName "bogus")) [],
                     .node (.groupref (.byName "groupA")) []] }).2 = some e →
      e = .invalidInput
        (concatMessages (resolveChildren (some [⟨"groupA", [2, 7, 9]⟩])
          [.node (.groupref (.byName "bogus")) [],
           .node (.groupref (.byName "groupA")) []]).2)) ∧
    (setIndexGroups (some [⟨"groupA", [2, 7, 9]⟩])
        { initialState with
          forest := [.node (.groupref (.byName "bogus")) [],
                     .node (.groupref (.byName "groupA")) []] }).1.sels =
      ({ initialState with
          forest := [.node (.groupref (.byName "bogus")) [],
                     .node (.groupref (.byName "groupA")) []] } :
        CollState).sels :=
  setIndexGroups_amended
    { initialState with
      forest := [.node (.groupref (.byName "bogus")) [],
                 .node (.groupref (.byName "groupA")) []] }
    [⟨"groupA", [2, 7, 9]⟩] rfl

/-- C4: group-reference resolution happens at most once per node.  A
second `setIndexGroups` with a non-NULL group set violates the
release-assert precondition (and changes nothing); a group reference
whose resolution succeeds becomes a constant node; a constant node is
not touched by resolution (so no later traversal re-resolves it); a
group reference whose resolution fails keeps its unresolved type; and
after a fully successful resolution pass, a second resolution pass over
the resulting tree (against any group set) is the identity and
produces no errors. -/
theorem groupResolution_once (grps2 : Option (List IndexGroup))
    (gs : List IndexGroup) (g : IndexGroup) (ref : GroupRef)
    (s : CollState) (e : SelElem)
    (hset : s.bExternalGroupsSet = true) :
    setIndexGroups (some gs) s = (s, some (.assertionFailure
      "Can only set external groups once or clear them afterwards")) ∧
    ((resolveNode (some gs) (.groupref ref)).2 = [] →
      ∃ cg, (resolveNode (some gs) (.groupref ref)).1 = .const cg) ∧
    resolveNode grps2 (.const g) = (.const g, []) ∧
    ((resolveNode grps2 (.groupref ref)).2 ≠ [] →
      (resolveNode grps2 (.groupref ref)).1 = .groupref ref) ∧
    ((resolveExternalGroups (some gs) e).2 = [] →
      resolveExternalGroups grps2 (resolveExternalGroups (some gs) e).1
        = ((resolveExternalGroups (some gs) e).1, [])) := by
  refine ⟨?_, ?_, rfl, ?_, ?_⟩
  · unfold setIndexGroups
    simp [hset]
  · intro h
    cases ref with
    | byName name =>
        simp only [resolveNode] at h ⊢
        cases hf : findGroup gs name with
        | none => rw [hf] at h; exact absurd h (by simp)
        | some gg => exact ⟨gg, rfl⟩
    | byId id =>
        simp only [resolveNode] at h ⊢
        cases hf : extractGroup gs id with
        | none => rw [hf] at h; exact absurd h (by simp)
        | some gg => exact ⟨gg, rfl⟩
  · intro h
    cases grps2 with
    | none => rfl
    | some gs2 =>
        cases ref with
        | byName name =>
            simp only [resolveNode] at h ⊢
            cases hf : findGroup gs2 name with
            | none => rfl
            | some gg => rw [hf] at h; exact absurd rfl h
        | byId id =>
            simp only [resolveNode] at h ⊢
            cases hf : extractGroup gs2 id with
            | none => rfl
            | some gg => rw [hf] at h; exact absurd rfl h
  · intro h
    exact resolve_noGroupRef_id grps2 _
      (resolve_noErrors_noGroupRef (some gs) e h)

/-- Witness for C4 at concrete inputs: a second non-NULL
`setIndexGroups` asserts, a resolvable reference becomes a constant,
constants are untouched, an unresolvable reference keeps its type, and
re-resolution of a resolved tree is the identity. -/
theorem groupResolution_once_witness :
    setIndexGroups (some [⟨"g", [1]⟩])
        { initialState with bExternalGroupsSet := true } =
      ({ initialState with bExternalGroupsSet := true },
        some (.assertionFailure
          "Can only set external groups once or clear them afterwards")) ∧
    ((resolveNode (some [⟨"g", [1]⟩]) (.groupref (.byName "g"))).2 = [] →
      ∃ cg, (resolveNode (some [⟨"g", [1]⟩])
        (.groupref (.byName "g"))).1 = .const cg) ∧
    resolveNode none (.const ⟨"g", [1]⟩) = (.const ⟨"g", [1]⟩, []) ∧
    ((resolveNode none (.groupref (.byName "g"))).2 ≠ [] →
      (resolveNode none (.groupref (.byName "g"))).1 =
        .groupref (.byName "g")) ∧
    ((resolveExternalGroups (some [⟨"g", [1]⟩])
        (.node (.groupref (.byName "g")) [])).2 = [] →
      resolveExternalGroups none (resolveExternalGroups (some [⟨"g", [1]⟩])
          (.node (.groupref (.byName "g")) [])).1
        = ((resolveExternalGroups (some [⟨"g", [1]⟩])
            (.node (.groupref (.byName "g")) [])).1, [])) :=
  groupResolution_once none [⟨"g", [1]⟩] ⟨"g", [1]⟩ (.byName "g")
    { initialState with bExternalGroupsSet := true }
    (.node (.groupref (.byName "g")) []) rfl

/-- C9: the diagnostic tree dump is emitted around `compile()` exactly
when the debug level is at least 1 (twice — before and after
compilation — without materialized values), and after `evaluate()`
exactly when the debug level is at least 3 (with materialized values);
at debug level 0 neither operation dumps any tree.  Stated for a
collection that compiles successfully (groups already set, topology
precondition satisfied). -/
theorem debug_dump_levels (s : CollState)
    (hb : s.bExternalGroupsSet = true)
    (htop : s.top ≠ none ∨ requiresTopology s = false) :
    (compile s).2.2 = none ∧
    (Event.treeDump false ∈ (compile s).2.1 ↔ 1 ≤ s.debugLevel) ∧
    (∀ b, Event.treeDump b ∈ (compile s).2.1 → b = false) ∧
    (Event.treeDump true ∈ (evaluate s).2 ↔ 3 ≤ s.debugLevel) ∧
    (s.debugLevel = 0 →
      (∀ b, Event.treeDump b ∉ (compile s).2.1) ∧
      (∀ b, Event.treeDump b ∉ (evaluate s).2)) ∧
    (1 ≤ s.debugLevel → (compile s).2.1 =
      [.treeDump false, .compilerRun, .treeDump false, .pccPrint,
       .pccInitEvaluation, .pccPrint]) := by
  have hcond : (decide (s.top = none) && requiresTopology s) = false := by
    rcases htop with h | h <;> simp [h]
  rw [compile_eq_of_groupsSet s hcond hb]
  by_cases hd : 1 ≤ s.debugLevel
  · by_cases hd3 : 3 ≤ s.debugLevel
    · refine ⟨rfl, ?_, ?_, ?_, ?_, ?_⟩
      · simp [compileEvents, hd]
      · intro b hbm
        simp [compileEvents, hd] at hbm
        rcases hbm with h | h | h <;> simp_all
      · simp [evaluate, hd3]
      · intro h0
        omega
      · intro _
        simp [compileEvents, hd]
    · refine ⟨rfl, ?_, ?_, ?_, ?_, ?_⟩
      · simp [compileEvents, hd]
      · intro b hbm
        simp [compileEvents, hd] at hbm
        rcases hbm with h | h | h <;> simp_all
      · simp [evaluate, hd3]
      · intro h0
        omega
      · intro _
        simp [compileEvents, hd]
  · have hd3 : ¬ 3 ≤ s.debugLevel := by omega
    refine ⟨rfl, ?_, ?_, ?_, ?_, ?_⟩
    · simp [compileEvents, hd]
    · intro b hbm
      simp [compileEvents, hd] at hbm
    · simp [evaluate, hd3]
    · intro h0
      constructor
      · intro b
        simp [compileEvents, hd]
      · intro b
        simp [evaluate, hd3]
    · intro h1
      exact absurd h1 hd

/-- An empty collection with external groups marked set, at debug
level `d`. -/
def dbgState (d : Nat) : CollState :=
  { initialState with bExternalGroupsSet := true, debugLevel := d }

/-- Witness for C9 at debug levels 0, 1 and 3 on an otherwise empty
collection with groups set. -/
theorem debug_dump_levels_witness :
    ((compile (dbgState 1)).2.1 =
      [.treeDump false, .compilerRun, .treeDump false, .pccPrint,
       .pccInitEvaluation, .pccPrint]) ∧
    (∀ b, Event.treeDump b ∉ (compile (dbgState 0)).2.1) ∧
    (Event.treeDump true ∈ (evaluate (dbgState 3)).2) := by
  have h1 := debug_dump_levels (dbgState 1) rfl (Or.inr (by decide))
  have h0 := debug_dump_levels (dbgState 0) rfl (Or.inr (by decide))
  have h3 := debug_dump_levels (dbgState 3) rfl (Or.inr (by decide))
  exact ⟨h1.2.2.2.2.2 (by decide), (h0.2.2.2.2.1 rfl).1,
    h3.2.2.2.1.mpr (by decide)⟩

end SelCol
